import Mathlib

/-!
Shallow embedding of the `MacroManager` class from `src/index.ts` of the
`macrosmanager` repository, together with theorems settling the spec claims.

Modelling decisions, mirrored from the source:

* JavaScript objects are mutable and aliased, so the registry is modelled
  with an explicit heap: record objects live at numeric references
  (`Ref`), the internal `Map<string, RegisteredMacro>` is an
  insertion-ordered association list from id to reference, and the
  in-place field mutations performed by `enable` / `disable` / `toggle` /
  `update` are heap updates at the looked-up reference.  This makes the
  aliasing behaviour of `getAll` (which returns `Array.from(values())`, a
  fresh array of the same record references) expressible.
* A macro action is an opaque callback `() => void`; it is modelled by an
  identity tag plus its observable behaviour (returns normally, or throws
  with a message).  Dispatch produces a trace of effects: `preventDefault`
  and `stopPropagation` calls on the event, action invocations (tagged by
  the record id whose action is invoked), `console.error` logs emitted by
  the `catch` block, and `console.log` debug lines.  The TypeScript
  `try`/`catch` around each action is modelled by the loop continuing past
  a throwing action and emitting an `errorLogged` effect; dispatch is a
  total function, matching the fact that no exception escapes the handler.
* Optional object properties (`ctrl?`, `preventDefault?`, ...) are
  `Option Bool`; JavaScript truthiness of such a field is `Option.getD
  false` (the `!!x` coercion of the source).  For the constructor options
  argument a key can additionally be present-but-`undefined`, which the
  spread `{...defaults, ...options}` treats as present; this is the
  three-valued `JSOpt`.
* `document.addEventListener` / `removeEventListener` on the `keydown`
  stream are modelled by a list of attached handler references stored in
  the state (`docListeners`); `removeEventListener` removes one occurrence
  of the exact handler reference, and does nothing when absent.  The bound
  callback created once in the constructor is the fixed reference
  `listenerFn`.
* `String.toLowerCase` is modelled by per-character lowering (`strLower`),
  which agrees with the source on the ASCII tag and key names involved.
-/

/-- Per-character string lowering, the model of JavaScript
`String.prototype.toLowerCase` used by `matchesCombo` and
`handleKeyPress`. -/
def strLower (s : String) : String := ⟨s.data.map Char.toLower⟩

/-- Observable behaviour of a macro action callback: it either returns
normally or throws with a message. -/
inductive ActionBehavior where
  | ok
  | throws (msg : String)
deriving DecidableEq, Repr

/-- Model of the TypeScript `MacroAction = () => void`: an identity tag
(so distinct callbacks are distinguishable) plus observable behaviour. -/
structure MacroAction where
  tag : Nat
  behavior : ActionBehavior
deriving DecidableEq, Repr

/-- The `KeyCombo` type of the source: a base key and four optional
modifier flags (absent modelled as `none`). -/
structure KeyCombo where
  key : String
  ctrl : Option Bool := none
  alt : Option Bool := none
  shift : Option Bool := none
  meta : Option Bool := none
deriving DecidableEq, Repr

/-- The record stored per macro id (the `RegisteredMacro` type of the
source). -/
structure MacroData where
  id : String
  keyCombo : KeyCombo
  action : MacroAction
  description : Option String := none
  enabled : Bool
deriving DecidableEq, Repr

/-- The parts of a DOM `KeyboardEvent` the source reads: the key name,
the four modifier flags, and the originating element's tag name. -/
structure KeyboardEvent where
  key : String
  ctrlKey : Bool := false
  altKey : Bool := false
  shiftKey : Bool := false
  metaKey : Bool := false
  targetTagName : String
deriving DecidableEq, Repr

/-- JavaScript truthiness of an optional boolean property: the source's
`!!x` applied to a field that may be absent or `undefined`. -/
def optTruthy (o : Option Bool) : Bool := o.getD false

/-- A property of a JavaScript options object literal: absent, present
with value `undefined`, or present with a boolean value.  Object spread
distinguishes the first two. -/
inductive JSOpt where
  | absent
  | presentUndefined
  | present (b : Bool)
deriving DecidableEq, Repr

/-- The `MacroManagerOptions` argument passed to the constructor. -/
structure MacroManagerOptionsArg where
  preventDefault : JSOpt := JSOpt.absent
  stopPropagation : JSOpt := JSOpt.absent
  debug : JSOpt := JSOpt.absent
deriving DecidableEq, Repr

/-- The effective options object after the constructor's spread; each
field is a JavaScript value that may be `undefined` (`none`). -/
structure EffectiveOptions where
  preventDefault : Option Bool
  stopPropagation : Option Bool
  debug : Option Bool
deriving DecidableEq, Repr

/-- One property of the spread `{...defaults, ...options}`: a key present
in `options` (even with value `undefined`) overwrites the default. -/
def spreadField (dflt : Option Bool) : JSOpt → Option Bool
  | JSOpt.absent => dflt
  | JSOpt.presentUndefined => none
  | JSOpt.present b => some b

/-- The constructor's `this.options = { preventDefault: true,
stopPropagation: false, debug: false, ...options }`. -/
def mkOptions (o : MacroManagerOptionsArg) : EffectiveOptions :=
  { preventDefault := spreadField (some true) o.preventDefault
    stopPropagation := spreadField (some false) o.stopPropagation
    debug := spreadField (some false) o.debug }

/-- Heap references for record objects. -/
abbrev Ref := Nat

/-- Dereference a record object (a JavaScript object lookup): first
entry for the reference, if any. -/
def heapLookup : List (Ref × MacroData) → Ref → Option MacroData
  | [], _ => none
  | p :: rest, r => if p.1 = r then some p.2 else heapLookup rest r

/-- Mutate the record object stored at reference `r` in place. -/
def heapModify : List (Ref × MacroData) → Ref → (MacroData → MacroData) → List (Ref × MacroData)
  | [], _, _ => []
  | p :: rest, r, f => (if p.1 = r then (p.1, f p.2) else p) :: heapModify rest r f

/-- `Map.get` on the insertion-ordered id → reference association list. -/
def mapLookup : List (String × Ref) → String → Option Ref
  | [], _ => none
  | p :: rest, id => if p.1 = id then some p.2 else mapLookup rest id

/-- `Map.delete`: removes the entry for `id` (ids are unique in a `Map`). -/
def mapDelete (l : List (String × Ref)) (id : String) : List (String × Ref) :=
  l.filter (fun p => p.1 != id)

/-- Boolean uniqueness of the keys of the id → reference list (a `Map`
invariant). -/
def distinctKeys : List (String × Ref) → Bool
  | [] => true
  | p :: rest => !(rest.any (fun q => q.1 == p.1)) && distinctKeys rest

/-- The state of a `MacroManager` instance together with the host
document's `keydown` listener list.  `heap` holds every record object
ever allocated (garbage collection never invalidates a still-held
reference); `macros` is the insertion-ordered `Map`; `listenerFn` is the
reference to the single bound callback created in the constructor. -/
structure ManagerState where
  heap : List (Ref × MacroData)
  nextRef : Ref
  macros : List (String × Ref)
  options : EffectiveOptions
  isListening : Bool
  listenerFn : Nat
  docListeners : List Nat
deriving DecidableEq, Repr

/-- The constructor `new MacroManager(options)`. -/
def mkManager (o : MacroManagerOptionsArg) : ManagerState :=
  { heap := []
    nextRef := 0
    macros := []
    options := mkOptions o
    isListening := false
    listenerFn := 0
    docListeners := [] }

/-- Well-formedness of a manager state: map keys are unique, and every
mapped reference points at a live record whose `id` field equals its map
key (always true of states reachable through the API). -/
def WF (s : ManagerState) : Prop :=
  distinctKeys s.macros = true ∧
  ∀ p ∈ s.macros, ((heapLookup s.heap p.2).any (fun m => m.id == p.1)) = true

instance (s : ManagerState) : Decidable (WF s) := by
  unfold WF; exact instDecidableAnd

/-- The error message thrown by `register` on a duplicate id. -/
def dupErrMsg (id : String) : String :=
  "MacroManager: Macro with ID \"" ++ id ++ "\" already exists"

/-- The debug line logged when a macro is executed. -/
def execMsg (id : String) : String :=
  "MacroManager: Executing macro \"" ++ id ++ "\""

/-- `getComboKey`: the derived chord label, modifiers in the fixed order
Ctrl, Alt, Shift, Meta, then the base key. -/
def getComboKey (combo : KeyCombo) : String :=
  (if optTruthy combo.ctrl then "Ctrl+" else "") ++
  (if optTruthy combo.alt then "Alt+" else "") ++
  (if optTruthy combo.shift then "Shift+" else "") ++
  (if optTruthy combo.meta then "Meta+" else "") ++
  combo.key

/-- `register`: throws (returned as `Except.error` with the thrown
message, the state unchanged) when the id exists; otherwise allocates a
new enabled record object and appends the map entry, returning the id. -/
def register (s : ManagerState) (id : String) (keyCombo : KeyCombo)
    (action : MacroAction) (description : Option String) :
    Except String String × ManagerState :=
  match mapLookup s.macros id with
  | some _ => (Except.error (dupErrMsg id), s)
  | none =>
    let m : MacroData :=
      { id := id, keyCombo := keyCombo, action := action
        description := description, enabled := true }
    (Except.ok id,
      { s with
        heap := s.heap ++ [(s.nextRef, m)]
        nextRef := s.nextRef + 1
        macros := s.macros ++ [(id, s.nextRef)] })

/-- `unregister`: deletes the map entry when present. -/
def unregister (s : ManagerState) (id : String) : Bool × ManagerState :=
  if (mapLookup s.macros id).isSome then
    (true, { s with macros := mapDelete s.macros id })
  else
    (false, s)

/-- `enable`: mutates the looked-up record object's `enabled` field in
place. -/
def enable (s : ManagerState) (id : String) : Bool × ManagerState :=
  match mapLookup s.macros id with
  | some r => (true, { s with heap := heapModify s.heap r (fun m => { m with enabled := true }) })
  | none => (false, s)

/-- `disable`: mutates the looked-up record object's `enabled` field in
place. -/
def disable (s : ManagerState) (id : String) : Bool × ManagerState :=
  match mapLookup s.macros id with
  | some r => (true, { s with heap := heapModify s.heap r (fun m => { m with enabled := false }) })
  | none => (false, s)

/-- `toggle`: flips the looked-up record object's `enabled` field in
place. -/
def toggle (s : ManagerState) (id : String) : Bool × ManagerState :=
  match mapLookup s.macros id with
  | some r => (true, { s with heap := heapModify s.heap r (fun m => { m with enabled := !m.enabled }) })
  | none => (false, s)

/-- `get`: returns the record object reference, or `none`
(`undefined`). -/
def get (s : ManagerState) (id : String) : Option Ref :=
  mapLookup s.macros id

/-- `getAll`: `Array.from(this.macros.values())` — a fresh array holding
the same record object references, in insertion order. -/
def getAll (s : ManagerState) : List Ref :=
  s.macros.map (fun p => p.2)

/-- The dereferenced contents an observer sees when reading the records
of a `getAll` snapshot against a given heap. -/
def snapshotContents (h : List (Ref × MacroData)) (snap : List Ref) :
    List (Option MacroData) :=
  snap.map (heapLookup h)

/-- The `Partial<Omit<RegisteredMacro, 'id'>>` argument of `update`:
each field is absent (`none`) or supplies a new value.  A supplied
`description` may itself be `undefined` (`some none`). -/
structure MacroUpdate where
  keyCombo : Option KeyCombo := none
  action : Option MacroAction := none
  description : Option (Option String) := none
  enabled : Option Bool := none
deriving DecidableEq, Repr

/-- `Object.assign(macro, updates)`: present fields overwrite, absent
fields are untouched, `id` is not part of the update type. -/
def applyUpdate (m : MacroData) (u : MacroUpdate) : MacroData :=
  { id := m.id
    keyCombo := u.keyCombo.getD m.keyCombo
    action := u.action.getD m.action
    description := u.description.getD m.description
    enabled := u.enabled.getD m.enabled }

/-- `update`: applies `Object.assign` to the looked-up record object in
place. -/
def update (s : ManagerState) (id : String) (u : MacroUpdate) : Bool × ManagerState :=
  match mapLookup s.macros id with
  | some r => (true, { s with heap := heapModify s.heap r (fun m => applyUpdate m u) })
  | none => (false, s)

/-- `clear`: `this.macros.clear()`. -/
def clear (s : ManagerState) : ManagerState :=
  { s with macros := [] }

/-- `document.addEventListener("keydown", f)` on the modelled generic
event target: appends the handler. -/
def addKeydownListener (ls : List Nat) (f : Nat) : List Nat := ls ++ [f]

/-- `document.removeEventListener("keydown", f)`: removes one occurrence
of exactly `f`, silently doing nothing when `f` is not attached. -/
def removeKeydownListener (ls : List Nat) (f : Nat) : List Nat := ls.erase f

/-- `start`: attaches the cached bound callback and sets the flag, only
when not already listening. -/
def start (s : ManagerState) : ManagerState :=
  if !s.isListening then
    { s with
      docListeners := addKeydownListener s.docListeners s.listenerFn
      isListening := true }
  else s

/-- `stop`: detaches the cached bound callback and clears the flag, only
when currently listening. -/
def stop (s : ManagerState) : ManagerState :=
  if s.isListening then
    { s with
      docListeners := removeKeydownListener s.docListeners s.listenerFn
      isListening := false }
  else s

/-- A call in a sequence of `start()` / `stop()` invocations. -/
inductive ListenOp where
  | start
  | stop
deriving DecidableEq, Repr

/-- Apply one `start()` / `stop()` call. -/
def applyListenOp (s : ManagerState) : ListenOp → ManagerState
  | ListenOp.start => start s
  | ListenOp.stop => stop s

/-- Run a sequence of `start()` / `stop()` calls. -/
def runListenOps (s : ManagerState) (ops : List ListenOp) : ManagerState :=
  ops.foldl applyListenOp s

/-- `matchesCombo`: case-insensitive key comparison plus exact equality
of all four modifier flags, absent flags coerced to `false` by `!!`. -/
def matchesCombo (event : KeyboardEvent) (combo : KeyCombo) : Bool :=
  strLower event.key == strLower combo.key &&
  event.ctrlKey == optTruthy combo.ctrl &&
  event.altKey == optTruthy combo.alt &&
  event.shiftKey == optTruthy combo.shift &&
  event.metaKey == optTruthy combo.meta

/-- The tag names whose events `handleKeyPress` discards. -/
def textEntryTags : List String := ["input", "textarea", "select"]

/-- The guard `['input','textarea','select'].includes(tagName)` on the
lowercased tag name of the event's target. -/
def isTextEntryTarget (e : KeyboardEvent) : Bool :=
  textEntryTags.contains (strLower e.targetTagName)

/-- One observable effect of a dispatch call. -/
inductive Effect where
  | preventDefault
  | stopPropagation
  | invoke (id : String) (tag : Nat)
  | errorLogged (id : String) (msg : String)
  | debugLog (msg : String)
deriving DecidableEq, Repr

/-- Recognizer for the `preventDefault` effect. -/
def isPD : Effect → Bool
  | Effect.preventDefault => true
  | Effect.stopPropagation => false
  | Effect.invoke _ _ => false
  | Effect.errorLogged _ _ => false
  | Effect.debugLog _ => false

/-- Recognizer for the `stopPropagation` effect. -/
def isSP : Effect → Bool
  | Effect.preventDefault => false
  | Effect.stopPropagation => true
  | Effect.invoke _ _ => false
  | Effect.errorLogged _ _ => false
  | Effect.debugLog _ => false

/-- The `try { macro.action() } catch (error) { console.error(...) }`
block: the action is invoked; if it throws, the error is caught and
logged and the loop continues. -/
def actionEffects (m : MacroData) : List Effect :=
  match m.action.behavior with
  | ActionBehavior.ok => [Effect.invoke m.id m.action.tag]
  | ActionBehavior.throws msg =>
      [Effect.invoke m.id m.action.tag, Effect.errorLogged m.id msg]

/-- The body of the dispatch loop for one matching enabled record: debug
log, optional `preventDefault`, optional `stopPropagation`, then the
guarded action invocation. -/
def macroEffects (o : EffectiveOptions) (m : MacroData) : List Effect :=
  (if optTruthy o.debug then [Effect.debugLog (execMsg m.id)] else []) ++
  (if optTruthy o.preventDefault then [Effect.preventDefault] else []) ++
  (if optTruthy o.stopPropagation then [Effect.stopPropagation] else []) ++
  actionEffects m

/-- The `for (const macro of this.macros.values())` loop. -/
def dispatchLoop (o : EffectiveOptions) (e : KeyboardEvent) : List MacroData → List Effect
  | [] => []
  | m :: rest =>
    (if m.enabled && matchesCombo e m.keyCombo then macroEffects o m else []) ++
    dispatchLoop o e rest

/-- The record objects of the registry in insertion order, dereferenced
(the sequence `this.macros.values()` yields). -/
def macroList (s : ManagerState) : List MacroData :=
  s.macros.filterMap (fun p => heapLookup s.heap p.2)

/-- `handleKeyPress`: discard events from text-entry elements, otherwise
run the dispatch loop over all records, producing the trace of effects. -/
def handleKeyPress (s : ManagerState) (e : KeyboardEvent) : List Effect :=
  if isTextEntryTarget e then []
  else dispatchLoop s.options e (macroList s)

/-- The number of records that are enabled and whose chord matches the
event. -/
def matchCount (s : ManagerState) (e : KeyboardEvent) : Nat :=
  (macroList s).countP (fun m => m.enabled && matchesCombo e m.keyCombo)

/-! Sample values used by the witness theorems: concrete managers built
through the API, and concrete events. -/

/-- A well-behaved action callback. -/
def sampleAction : MacroAction := { tag := 0, behavior := ActionBehavior.ok }

/-- A second well-behaved action callback. -/
def okAction2 : MacroAction := { tag := 2, behavior := ActionBehavior.ok }

/-- An action callback that throws. -/
def throwingAction : MacroAction := { tag := 1, behavior := ActionBehavior.throws "Test error" }

/-- The chord Ctrl+s. -/
def saveCombo : KeyCombo := { key := "s", ctrl := some true }

/-- The bare chord x. -/
def xCombo : KeyCombo := { key := "x" }

/-- The bare chord a. -/
def aCombo : KeyCombo := { key := "a" }

/-- The bare chord b. -/
def bCombo : KeyCombo := { key := "b" }

/-- A manager with one macro "save" on Ctrl+s. -/
def sampleState : ManagerState :=
  (register (mkManager {}) "save" saveCombo sampleAction none).2

/-- The record object of "save" in `sampleState`. -/
def sampleRecord : MacroData :=
  { id := "save", keyCombo := saveCombo, action := sampleAction
    description := none, enabled := true }

/-- A Ctrl+S key-down event from a div. -/
def sampleEvent : KeyboardEvent :=
  { key := "S", ctrlKey := true, targetTagName := "DIV" }

/-- A manager with two macros on the chord x, the first of which throws. -/
def twoMacroState : ManagerState :=
  (register (register (mkManager {}) "boom" xCombo throwingAction none).2
    "second" xCombo okAction2 none).2

/-- The record object of "boom" in `twoMacroState`. -/
def boomRecord : MacroData :=
  { id := "boom", keyCombo := xCombo, action := throwingAction
    description := none, enabled := true }

/-- An x key-down event from a div. -/
def xEvent : KeyboardEvent := { key := "x", targetTagName := "DIV" }

/-- A manager with macros "a" and "b" on distinct chords. -/
def snapState : ManagerState :=
  (register (register (mkManager {}) "a" aCombo sampleAction none).2
    "b" bCombo okAction2 none).2

/-- Constructor options with propagation suppression switched on. -/
def bothOptsArg : MacroManagerOptionsArg := { stopPropagation := JSOpt.present true }

/-- A manager configured to suppress propagation, holding two macros on
the chord x. -/
def suppressState : ManagerState :=
  (register (register (mkManager bothOptsArg) "one" xCombo sampleAction none).2
    "two" xCombo okAction2 none).2

/-- Constructor options with preventDefault present but undefined. -/
def undefinedPDArg : MacroManagerOptionsArg :=
  { preventDefault := JSOpt.presentUndefined }

/-- A manager built from `undefinedPDArg`, with one macro "m" on the
chord a. -/
def undefinedPDState : ManagerState :=
  (register (mkManager undefinedPDArg) "m" aCombo sampleAction none).2

/-- A plain a key-down event from a div. -/
def plainAEvent : KeyboardEvent := { key := "a", targetTagName := "DIV" }

/-- A Ctrl+s key-down event originating from an INPUT element. -/
def inputEvent : KeyboardEvent :=
  { key := "s", ctrlKey := true, targetTagName := "INPUT" }

/-- A q key-down event from a div, matching no registered chord. -/
def qEvent : KeyboardEvent := { key := "q", targetTagName := "DIV" }

/-- An update supplying only description and enabled. -/
def sampleUpd : MacroUpdate :=
  { description := some (some "updated"), enabled := some false }

/-- The invariant the listening machinery maintains: the document's
keydown listener list holds exactly the manager's cached bound callback
when listening, and nothing of the manager otherwise. -/
def listenInv (s : ManagerState) : Prop :=
  s.docListeners = (if s.isListening then [s.listenerFn] else [])

/-! ### Helper lemmas -/

/-- Truthiness of an optional boolean is `true` exactly for a present
`true`. -/
theorem optTruthy_eq_true {o : Option Bool} : optTruthy o = true ↔ o = some true := by
  cases o <;> simp [optTruthy]

/-- The chord-matching test, unfolded to the conjunction the spec
states. -/
theorem matchesCombo_eq_true_iff (e : KeyboardEvent) (c : KeyCombo) :
    matchesCombo e c = true ↔
      (strLower e.key = strLower c.key ∧ e.ctrlKey = optTruthy c.ctrl ∧
       e.altKey = optTruthy c.alt ∧ e.shiftKey = optTruthy c.shift ∧
       e.metaKey = optTruthy c.meta) := by
  unfold matchesCombo
  simp [Bool.and_eq_true, and_assoc]

/-- An `invoke` effect produced by one loop body carries exactly that
record's id and action tag. -/
theorem invoke_mem_macroEffects_iff (o : EffectiveOptions) (m : MacroData)
    (i : String) (t : Nat) :
    Effect.invoke i t ∈ macroEffects o m ↔ i = m.id ∧ t = m.action.tag := by
  unfold macroEffects actionEffects
  cases optTruthy o.debug <;> cases optTruthy o.preventDefault <;>
    cases optTruthy o.stopPropagation <;> cases m.action.behavior <;>
      simp [List.mem_append]

/-- A throwing action's caught error is logged by its loop body. -/
theorem errorLogged_mem_actionEffects (m : MacroData) (msg : String)
    (hb : m.action.behavior = ActionBehavior.throws msg) :
    Effect.errorLogged m.id msg ∈ actionEffects m := by
  unfold actionEffects
  rw [hb]
  simp

/-- An `invoke` effect appears in the dispatch loop's trace exactly when
some enabled, matching record in the list has that id and tag. -/
theorem invoke_mem_dispatchLoop_iff (o : EffectiveOptions) (e : KeyboardEvent)
    (l : List MacroData) (i : String) (t : Nat) :
    Effect.invoke i t ∈ dispatchLoop o e l ↔
      ∃ m ∈ l, m.id = i ∧ m.action.tag = t ∧ m.enabled = true ∧
        matchesCombo e m.keyCombo = true := by
  induction l with
  | nil => simp [dispatchLoop]
  | cons m rest ih =>
    unfold dispatchLoop
    rw [List.mem_append, ih]
    by_cases h : (m.enabled && matchesCombo e m.keyCombo) = true
    · have h' := h
      rw [Bool.and_eq_true] at h'
      rw [if_pos h, invoke_mem_macroEffects_iff]
      constructor
      · rintro (⟨rfl, rfl⟩ | ⟨m', hm', hid, htag, hen, hmc⟩)
        · exact ⟨m, List.mem_cons_self m rest, rfl, rfl, h'.1, h'.2⟩
        · exact ⟨m', List.mem_cons_of_mem m hm', hid, htag, hen, hmc⟩
      · rintro ⟨m', hm', hid, htag, hen, hmc⟩
        rcases List.mem_cons.mp hm' with rfl | hm''
        · exact Or.inl ⟨hid.symm, htag.symm⟩
        · exact Or.inr ⟨m', hm'', hid, htag, hen, hmc⟩
    · rw [if_neg h]
      constructor
      · rintro (hfalse | ⟨m', hm', hid, htag, hen, hmc⟩)
        · simp at hfalse
        · exact ⟨m', List.mem_cons_of_mem m hm', hid, htag, hen, hmc⟩
      · rintro ⟨m', hm', hid, htag, hen, hmc⟩
        rcases List.mem_cons.mp hm' with rfl | hm''
        · exact absurd (by simp [hen, hmc]) h
        · exact Or.inr ⟨m', hm'', hid, htag, hen, hmc⟩

/-- A throwing matched record's caught error appears in the dispatch
loop's trace. -/
theorem errorLogged_mem_dispatchLoop (o : EffectiveOptions) (e : KeyboardEvent)
    {l : List MacroData} {m : MacroData} (msg : String)
    (hm : m ∈ l) (he : m.enabled = true) (hc : matchesCombo e m.keyCombo = true)
    (hb : m.action.behavior = ActionBehavior.throws msg) :
    Effect.errorLogged m.id msg ∈ dispatchLoop o e l := by
  induction l with
  | nil => cases hm
  | cons m' rest ih =>
    unfold dispatchLoop
    rw [List.mem_append]
    rcases List.mem_cons.mp hm with rfl | hm'
    · refine Or.inl ?_
      rw [if_pos (by simp [he, hc])]
      unfold macroEffects
      exact List.mem_append_right _ (errorLogged_mem_actionEffects m msg hb)
    · exact Or.inr (ih hm')

/-- A matched-record list with unique ids: distinct map keys give a
`Nodup` list of first components. -/
theorem distinctKeys_nodup (l : List (String × Ref)) (h : distinctKeys l = true) :
    (l.map Prod.fst).Nodup := by
  induction l with
  | nil => simp
  | cons p rest ih =>
    have h' : (rest.any fun q => q.1 == p.1) = false ∧ distinctKeys rest = true := by
      cases hb : rest.any fun q => q.1 == p.1 <;> cases hd : distinctKeys rest <;>
        simp [distinctKeys, hb, hd] at h ⊢
    rw [List.map_cons, List.nodup_cons]
    refine ⟨?_, ih h'.2⟩
    intro hmem
    obtain ⟨q, hq, hq1⟩ := List.mem_map.mp hmem
    have hfalse := List.any_eq_false.mp h'.1 q hq
    exact hfalse (by rw [hq1]; exact beq_self_eq_true p.1)

/-- Under the registry's id-coherence condition, the dereferenced record
list reproduces the map keys as ids, in order. -/
theorem filterMap_map_id (h : List (Ref × MacroData)) (l : List (String × Ref))
    (hall : ∀ p ∈ l, ((heapLookup h p.2).any fun m => m.id == p.1) = true) :
    (l.filterMap (fun p => heapLookup h p.2)).map MacroData.id = l.map Prod.fst := by
  induction l with
  | nil => rfl
  | cons p rest ih =>
    have hp := hall p (List.mem_cons_self p rest)
    cases hl : heapLookup h p.2 with
    | none => rw [hl] at hp; simp [Option.any] at hp
    | some m =>
      rw [hl] at hp
      have hid : m.id = p.1 := by simpa [Option.any] using hp
      rw [List.filterMap_cons, hl, List.map_cons, List.map_cons,
        ih (fun q hq => hall q (List.mem_cons_of_mem p hq)), hid]

/-- In a well-formed state the ids of the record objects are the map
keys, in insertion order. -/
theorem macroList_map_id (s : ManagerState) (hWF : WF s) :
    (macroList s).map MacroData.id = s.macros.map Prod.fst :=
  filterMap_map_id s.heap s.macros hWF.2

/-- In a well-formed state, two record objects of the registry with the
same id are the same record. -/
theorem macroList_id_inj (s : ManagerState) (hWF : WF s) {m m' : MacroData}
    (hm : m ∈ macroList s) (hm' : m' ∈ macroList s) (hid : m.id = m'.id) : m = m' := by
  have hnd : ((macroList s).map MacroData.id).Nodup := by
    rw [macroList_map_id s hWF]
    exact distinctKeys_nodup s.macros hWF.1
  exact List.inj_on_of_nodup_map hnd hm hm' hid

/-- Reading the mutated reference sees the mutation. -/
theorem heapLookup_heapModify_self (h : List (Ref × MacroData)) (r : Ref)
    (f : MacroData → MacroData) :
    heapLookup (heapModify h r f) r = (heapLookup h r).map f := by
  induction h with
  | nil => rfl
  | cons p rest ih =>
    unfold heapModify heapLookup
    by_cases hb : p.1 = r
    · simp [hb]
    · simp [hb, ih]

/-- A live reference reads the same after the heap grows (JavaScript
allocation never moves or invalidates an existing object). -/
theorem heapLookup_append_of_isSome (h h' : List (Ref × MacroData)) (r : Ref)
    (hs : (heapLookup h r).isSome = true) : heapLookup (h ++ h') r = heapLookup h r := by
  induction h with
  | nil => simp [heapLookup] at hs
  | cons p rest ih =>
    rw [List.cons_append]
    unfold heapLookup at hs ⊢
    by_cases hb : p.1 = r
    · simp [hb]
    · simp only [if_neg hb] at hs ⊢
      exact ih hs

/-- One `start()` or `stop()` call preserves the listening invariant and
never replaces the cached bound callback. -/
theorem listenInv_apply (s : ManagerState) (op : ListenOp) (h : listenInv s) :
    listenInv (applyListenOp s op) ∧ (applyListenOp s op).listenerFn = s.listenerFn := by
  unfold listenInv at h
  cases op
  · unfold applyListenOp start
    cases hb : s.isListening
    · rw [hb] at h
      simp only [Bool.false_eq_true, if_false] at h
      simp [hb, listenInv, addKeydownListener, h]
    · rw [hb] at h
      simp only [if_true] at h
      simp [hb, listenInv, h]
  · unfold applyListenOp stop
    cases hb : s.isListening
    · rw [hb] at h
      simp only [Bool.false_eq_true, if_false] at h
      simp [hb, listenInv, h]
    · rw [hb] at h
      simp only [if_true] at h
      simp [hb, listenInv, removeKeydownListener, h]

/-- Any sequence of `start()` / `stop()` calls preserves the listening
invariant and the identity of the cached bound callback. -/
theorem runListenOps_inv (ops : List ListenOp) :
    ∀ s : ManagerState, listenInv s →
      listenInv (runListenOps s ops) ∧ (runListenOps s ops).listenerFn = s.listenerFn := by
  induction ops with
  | nil => exact fun s h => ⟨h, rfl⟩
  | cons op rest ih =>
    intro s h
    have h1 := listenInv_apply s op h
    have h2 := ih (applyListenOp s op) h1.1
    unfold runListenOps at h2 ⊢
    rw [List.foldl_cons]
    exact ⟨h2.1, h2.2.trans h1.2⟩

/-- One loop body performs exactly one `preventDefault` call when the
option is truthy, none otherwise. -/
theorem countP_isPD_macroEffects (o : EffectiveOptions) (m : MacroData) :
    (macroEffects o m).countP isPD = if optTruthy o.preventDefault then 1 else 0 := by
  unfold macroEffects actionEffects
  cases optTruthy o.debug <;> cases optTruthy o.preventDefault <;>
    cases optTruthy o.stopPropagation <;> cases m.action.behavior <;>
      simp [List.countP_append, List.countP_cons, isPD]

/-- One loop body performs exactly one `stopPropagation` call when the
option is truthy, none otherwise. -/
theorem countP_isSP_macroEffects (o : EffectiveOptions) (m : MacroData) :
    (macroEffects o m).countP isSP = if optTruthy o.stopPropagation then 1 else 0 := by
  unfold macroEffects actionEffects
  cases optTruthy o.debug <;> cases optTruthy o.preventDefault <;>
    cases optTruthy o.stopPropagation <;> cases m.action.behavior <;>
      simp [List.countP_append, List.countP_cons, isSP]

/-- With default suppression configured, the loop suppresses once per
matching enabled record. -/
theorem countP_isPD_dispatchLoop (o : EffectiveOptions) (e : KeyboardEvent)
    (l : List MacroData) (hpd : optTruthy o.preventDefault = true) :
    (dispatchLoop o e l).countP isPD =
      l.countP (fun m => m.enabled && matchesCombo e m.keyCombo) := by
  induction l with
  | nil => rfl
  | cons m rest ih =>
    unfold dispatchLoop
    rw [List.countP_append, ih, List.countP_cons]
    by_cases hmc : (m.enabled && matchesCombo e m.keyCombo) = true
    · rw [if_pos hmc, countP_isPD_macroEffects, if_pos hpd, if_pos hmc]
      omega
    · rw [if_neg hmc, if_neg hmc]
      simp

/-- With propagation suppression configured, the loop suppresses once
per matching enabled record. -/
theorem countP_isSP_dispatchLoop (o : EffectiveOptions) (e : KeyboardEvent)
    (l : List MacroData) (hsp : optTruthy o.stopPropagation = true) :
    (dispatchLoop o e l).countP isSP =
      l.countP (fun m => m.enabled && matchesCombo e m.keyCombo) := by
  induction l with
  | nil => rfl
  | cons m rest ih =>
    unfold dispatchLoop
    rw [List.countP_append, ih, List.countP_cons]
    by_cases hmc : (m.enabled && matchesCombo e m.keyCombo) = true
    · rw [if_pos hmc, countP_isSP_macroEffects, if_pos hsp, if_pos hmc]
      omega
    · rw [if_neg hmc, if_neg hmc]
      simp

/-- A loop over records none of which is enabled and matching emits
nothing. -/
theorem dispatchLoop_eq_nil (o : EffectiveOptions) (e : KeyboardEvent)
    (l : List MacroData)
    (h : ∀ m ∈ l, (m.enabled && matchesCombo e m.keyCombo) = false) :
    dispatchLoop o e l = [] := by
  induction l with
  | nil => rfl
  | cons m rest ih =>
    unfold dispatchLoop
    rw [if_neg (by simp [h m (List.mem_cons_self m rest)]), List.nil_append]
    exact ih fun m' hm' => h m' (List.mem_cons_of_mem m hm')

/-! ### Claim theorems -/

/-- Claim C1: for every registered record and every key-down event not
originating from a text-entry element, dispatch invokes the record's
action iff the record's enabled flag is true, the event's key equals the
chord's key under case-insensitive comparison, and each of the four
modifier flags of the event exactly equals the corresponding chord flag,
an absent flag treated as false. -/
theorem dispatch_fires_iff (s : ManagerState) (e : KeyboardEvent) (m : MacroData)
    (hWF : WF s) (hT : isTextEntryTarget e = false) (hm : m ∈ macroList s) :
    Effect.invoke m.id m.action.tag ∈ handleKeyPress s e ↔
      (m.enabled = true ∧ strLower e.key = strLower m.keyCombo.key ∧
       e.ctrlKey = optTruthy m.keyCombo.ctrl ∧ e.altKey = optTruthy m.keyCombo.alt ∧
       e.shiftKey = optTruthy m.keyCombo.shift ∧
       e.metaKey = optTruthy m.keyCombo.meta) := by
  unfold handleKeyPress
  rw [hT]
  simp only [Bool.false_eq_true, if_false]
  rw [invoke_mem_dispatchLoop_iff]
  constructor
  · rintro ⟨m', hm', hid, htag, hen, hmc⟩
    have hmm : m' = m := macroList_id_inj s hWF hm' hm hid
    subst hmm
    rw [matchesCombo_eq_true_iff] at hmc
    exact ⟨hen, hmc⟩
  · rintro ⟨hen, hrest⟩
    exact ⟨m, hm, rfl, rfl, hen, (matchesCombo_eq_true_iff e m.keyCombo).mpr hrest⟩

/-- Witness for C1: the "save" record on Ctrl+s against a Ctrl+S event
from a div. -/
theorem dispatch_fires_iff_witness :
    WF sampleState ∧ isTextEntryTarget sampleEvent = false ∧
    sampleRecord ∈ macroList sampleState ∧
    (Effect.invoke sampleRecord.id sampleRecord.action.tag ∈
        handleKeyPress sampleState sampleEvent ↔
      (sampleRecord.enabled = true ∧
       strLower sampleEvent.key = strLower sampleRecord.keyCombo.key ∧
       sampleEvent.ctrlKey = optTruthy sampleRecord.keyCombo.ctrl ∧
       sampleEvent.altKey = optTruthy sampleRecord.keyCombo.alt ∧
       sampleEvent.shiftKey = optTruthy sampleRecord.keyCombo.shift ∧
       sampleEvent.metaKey = optTruthy sampleRecord.keyCombo.meta)) :=
  ⟨by decide, by decide, by decide,
   dispatch_fires_iff sampleState sampleEvent sampleRecord
     (by decide) (by decide) (by decide)⟩

/-- Claim C2: a matching enabled record whose action throws during
dispatch has the fault caught and logged, and every matching enabled
record's action on the same event is still invoked; dispatch is a total
function, so the handler returns normally with this trace. -/
theorem action_fault_isolated (s : ManagerState) (e : KeyboardEvent)
    (m1 : MacroData) (msg : String)
    (hT : isTextEntryTarget e = false)
    (h1 : m1 ∈ macroList s) (he1 : m1.enabled = true)
    (hc1 : matchesCombo e m1.keyCombo = true)
    (hb : m1.action.behavior = ActionBehavior.throws msg) :
    Effect.errorLogged m1.id msg ∈ handleKeyPress s e ∧
    ∀ m2 ∈ macroList s, m2.enabled = true → matchesCombo e m2.keyCombo = true →
      Effect.invoke m2.id m2.action.tag ∈ handleKeyPress s e := by
  unfold handleKeyPress
  rw [hT]
  simp only [Bool.false_eq_true, if_false]
  refine ⟨errorLogged_mem_dispatchLoop s.options e msg h1 he1 hc1 hb, ?_⟩
  intro m2 hm2 he2 hc2
  exact (invoke_mem_dispatchLoop_iff s.options e (macroList s) m2.id m2.action.tag).mpr
    ⟨m2, hm2, rfl, rfl, he2, hc2⟩

/-- Witness for C2: two macros on the chord x, the first of which
throws; the error is logged and both actions are invoked. -/
theorem action_fault_isolated_witness :
    isTextEntryTarget xEvent = false ∧
    boomRecord ∈ macroList twoMacroState ∧
    boomRecord.enabled = true ∧
    matchesCombo xEvent boomRecord.keyCombo = true ∧
    boomRecord.action.behavior = ActionBehavior.throws "Test error" ∧
    (Effect.errorLogged boomRecord.id "Test error" ∈
        handleKeyPress twoMacroState xEvent ∧
     ∀ m2 ∈ macroList twoMacroState, m2.enabled = true →
       matchesCombo xEvent m2.keyCombo = true →
       Effect.invoke m2.id m2.action.tag ∈ handleKeyPress twoMacroState xEvent) :=
  ⟨by decide, by decide, by decide, by decide, by decide,
   action_fault_isolated twoMacroState xEvent boomRecord "Test error"
     (by decide) (by decide) (by decide) (by decide) (by decide)⟩

/-- Claim C5: a key-down event whose originating element's tag name is
input, textarea or select under case-insensitive comparison is
discarded: dispatch produces no effects at all, whatever is registered
and whether or not any chord matches. -/
theorem text_entry_events_discarded (s : ManagerState) (e : KeyboardEvent)
    (h : strLower e.targetTagName = "input" ∨ strLower e.targetTagName = "textarea" ∨
         strLower e.targetTagName = "select") :
    handleKeyPress s e = [] := by
  have ht : isTextEntryTarget e = true := by
    unfold isTextEntryTarget textEntryTags
    rcases h with h | h | h <;> rw [h] <;> decide
  unfold handleKeyPress
  rw [ht]
  simp

/-- Witness for C5: a matching Ctrl+s event from an INPUT element
produces no effects on the "save" registry. -/
theorem text_entry_events_discarded_witness :
    (strLower inputEvent.targetTagName = "input" ∨
     strLower inputEvent.targetTagName = "textarea" ∨
     strLower inputEvent.targetTagName = "select") ∧
    handleKeyPress sampleState inputEvent = [] :=
  ⟨by decide, text_entry_events_discarded sampleState inputEvent (by decide)⟩

/-- Claim C9: a key-down event from a non-text-entry element for which
no registered record is both enabled and chord-matching produces no
effects at all: no default-action suppression, no propagation
suppression, no action invocation. -/
theorem no_match_no_effects (s : ManagerState) (e : KeyboardEvent)
    (hT : isTextEntryTarget e = false)
    (hno : ∀ m ∈ macroList s,
      ¬(m.enabled = true ∧ matchesCombo e m.keyCombo = true)) :
    handleKeyPress s e = [] := by
  unfold handleKeyPress
  rw [hT]
  simp only [Bool.false_eq_true, if_false]
  refine dispatchLoop_eq_nil s.options e (macroList s) ?_
  intro m hm
  have hnm := hno m hm
  cases hen : m.enabled <;> cases hmc : matchesCombo e m.keyCombo <;> simp_all

/-- Witness for C9: a q key-down event against the "save" registry. -/
theorem no_match_no_effects_witness :
    isTextEntryTarget qEvent = false ∧
    (∀ m ∈ macroList sampleState,
      ¬(m.enabled = true ∧ matchesCombo qEvent m.keyCombo = true)) ∧
    handleKeyPress sampleState qEvent = [] :=
  ⟨by decide, by decide,
   no_match_no_effects sampleState qEvent (by decide) (by decide)⟩

/-- Claim C3: registering an already-present id throws the duplicate-id
error carrying the id and leaves the registry state exactly as it was
(the first record untouched); registering a fresh id appends a new
record object with enabled set to true and returns the id. -/
theorem register_duplicate_and_fresh (s : ManagerState) (id : String)
    (combo : KeyCombo) (a : MacroAction) (d : Option String) :
    ((mapLookup s.macros id).isSome = true →
      register s id combo a d = (Except.error (dupErrMsg id), s)) ∧
    (mapLookup s.macros id = none →
      register s id combo a d =
        (Except.ok id,
          { s with
            heap := s.heap ++
              [(s.nextRef,
                { id := id, keyCombo := combo, action := a
                  description := d, enabled := true })]
            nextRef := s.nextRef + 1
            macros := s.macros ++ [(id, s.nextRef)] })) := by
  constructor
  · intro h
    unfold register
    cases hm : mapLookup s.macros id
    · rw [hm] at h
      simp at h
    · rfl
  · intro h
    unfold register
    rw [h]

/-- Witness for C3: re-registering "save" fails and changes nothing;
registering "save" into an empty manager inserts an enabled record. -/
theorem register_duplicate_and_fresh_witness :
    (mapLookup sampleState.macros "save").isSome = true ∧
    register sampleState "save" saveCombo sampleAction none =
      (Except.error (dupErrMsg "save"), sampleState) ∧
    mapLookup (mkManager {}).macros "save" = none ∧
    register (mkManager {}) "save" saveCombo sampleAction none =
      (Except.ok "save",
        { mkManager {} with
          heap := (mkManager {}).heap ++
            [((mkManager {}).nextRef,
              { id := "save", keyCombo := saveCombo, action := sampleAction
                description := none, enabled := true })]
          nextRef := (mkManager {}).nextRef + 1
          macros := (mkManager {}).macros ++ [("save", (mkManager {}).nextRef)] }) :=
  ⟨by decide,
   (register_duplicate_and_fresh sampleState "save" saveCombo sampleAction none).1
     (by decide),
   by decide,
   (register_duplicate_and_fresh (mkManager {}) "save" saveCombo sampleAction none).2
     (by decide)⟩

/-- Claim C4: across any sequence of start and stop calls from
construction, the document's keydown listener list holds exactly the
manager's one cached bound callback when the listening flag is true and
nothing of the manager otherwise (so the flag is true iff exactly one
handler is attached); the cached callback reference never changes;
start while listening and stop while not listening are exact no-ops. -/
theorem listen_flag_iff_attached (o : MacroManagerOptionsArg) (ops : List ListenOp) :
    ((runListenOps (mkManager o) ops).docListeners =
      if (runListenOps (mkManager o) ops).isListening
      then [(runListenOps (mkManager o) ops).listenerFn] else []) ∧
    ((runListenOps (mkManager o) ops).isListening = true ↔
      (runListenOps (mkManager o) ops).docListeners =
        [(runListenOps (mkManager o) ops).listenerFn]) ∧
    (runListenOps (mkManager o) ops).listenerFn = (mkManager o).listenerFn ∧
    (∀ s : ManagerState, s.isListening = true → start s = s) ∧
    (∀ s : ManagerState, s.isListening = false → stop s = s) := by
  have hinv : listenInv (mkManager o) := by
    unfold listenInv mkManager
    simp
  obtain ⟨h1, h2⟩ := runListenOps_inv ops (mkManager o) hinv
  unfold listenInv at h1
  refine ⟨h1, ⟨?_, ?_⟩, h2, ?_, ?_⟩
  · intro ht
    rw [h1, ht]
    simp
  · intro hd
    cases ht : (runListenOps (mkManager o) ops).isListening
    · exfalso
      rw [ht] at h1
      simp at h1
      rw [h1] at hd
      simp at hd
    · rfl
  · intro s hs
    unfold start
    rw [hs]
    simp
  · intro s hs
    unfold stop
    rw [hs]
    simp

/-- Witness for C4: a start-stop cycle maintains the invariant, a second
start is a no-op, and stop on a fresh manager is a no-op. -/
theorem listen_flag_iff_attached_witness :
    ((runListenOps (mkManager {}) [ListenOp.start, ListenOp.stop]).docListeners =
      if (runListenOps (mkManager {}) [ListenOp.start, ListenOp.stop]).isListening
      then [(runListenOps (mkManager {}) [ListenOp.start, ListenOp.stop]).listenerFn]
      else []) ∧
    (start (mkManager {})).isListening = true ∧
    start (start (mkManager {})) = start (mkManager {}) ∧
    (mkManager {}).isListening = false ∧
    stop (mkManager {}) = mkManager {} :=
  ⟨(listen_flag_iff_attached {} [ListenOp.start, ListenOp.stop]).1,
   by decide,
   (listen_flag_iff_attached {} []).2.2.2.1 (start (mkManager {})) (by decide),
   by decide,
   (listen_flag_iff_attached {} []).2.2.2.2 (mkManager {}) (by decide)⟩

/-- In a well-formed state every reference listed by `getAll` is a live
record object. -/
theorem WF_lookup_isSome (s : ManagerState) (hWF : WF s) {r : Ref}
    (hr : r ∈ getAll s) : (heapLookup s.heap r).isSome = true := by
  unfold getAll at hr
  obtain ⟨p, hp, hpr⟩ := List.mem_map.mp hr
  have h2 := hWF.2 p hp
  subst hpr
  cases hl : heapLookup s.heap p.2
  · rw [hl] at h2
    simp [Option.any] at h2
  · simp [hl]

/-- Two heaps that agree on every reference of a snapshot give the same
snapshot contents. -/
theorem snapshotContents_congr (h h' : List (Ref × MacroData)) (snap : List Ref)
    (hc : ∀ r ∈ snap, heapLookup h' r = heapLookup h r) :
    snapshotContents h' snap = snapshotContents h snap := by
  unfold snapshotContents
  induction snap with
  | nil => rfl
  | cons r rest ih =>
    rw [List.map_cons, List.map_cons, hc r (List.mem_cons_self r rest),
      ih (fun q hq => hc q (List.mem_cons_of_mem r hq))]

/-- Counterexample to claim C6: a `getAll` snapshot's elements alias the
live record objects, so a later `disable` call on the registry changes
the contents read through the snapshot, even though the snapshot's
reference list itself is unaffected. -/
theorem getAll_snapshot_counterexample :
    (getAll snapState = [0, 1] ∧ get snapState "b" = some 1) ∧
    getAll ((disable snapState "b").2) = getAll snapState ∧
    snapshotContents ((disable snapState "b").2).heap (getAll snapState) ≠
      snapshotContents snapState.heap (getAll snapState) := by
  decide

/-- Claim C6 amended: `getAll` returns a fresh sequence of the record
references in insertion order whose membership and order are fixed at
call time, and whose dereferenced contents survive the structural
registry mutations unregister, clear and register unchanged — but (per
the counterexample) its elements alias the live record objects, so
field-mutating calls remain visible through it. -/
theorem getAll_structural_snapshot (s : ManagerState) (hWF : WF s) :
    getAll s = s.macros.map Prod.snd ∧
    (∀ id, snapshotContents ((unregister s id).2).heap (getAll s) =
      snapshotContents s.heap (getAll s)) ∧
    snapshotContents (clear s).heap (getAll s) =
      snapshotContents s.heap (getAll s) ∧
    (∀ id c a d, snapshotContents ((register s id c a d).2).heap (getAll s) =
      snapshotContents s.heap (getAll s)) := by
  refine ⟨rfl, ?_, rfl, ?_⟩
  · intro id
    have hh : ((unregister s id).2).heap = s.heap := by
      unfold unregister
      by_cases h : (mapLookup s.macros id).isSome = true <;> simp [h]
    rw [hh]
  · intro id c a d
    cases h : mapLookup s.macros id
    · have hh : ((register s id c a d).2).heap =
          s.heap ++ [(s.nextRef,
            { id := id, keyCombo := c, action := a
              description := d, enabled := true })] := by
        simp [register, h]
      rw [hh]
      exact snapshotContents_congr s.heap _ (getAll s)
        (fun r hr => heapLookup_append_of_isSome s.heap _ r (WF_lookup_isSome s hWF hr))
    · have hh : ((register s id c a d).2).heap = s.heap := by
        simp [register, h]
      rw [hh]

/-- Witness for the amended C6 at a concrete two-record registry. -/
theorem getAll_structural_snapshot_witness :
    WF snapState ∧
    snapshotContents ((unregister snapState "a").2).heap (getAll snapState) =
      snapshotContents snapState.heap (getAll snapState) ∧
    snapshotContents (clear snapState).heap (getAll snapState) =
      snapshotContents snapState.heap (getAll snapState) ∧
    snapshotContents ((register snapState "c" saveCombo okAction2 none).2).heap
        (getAll snapState) =
      snapshotContents snapState.heap (getAll snapState) :=
  ⟨by decide,
   (getAll_structural_snapshot snapState (by decide)).2.1 "a",
   (getAll_structural_snapshot snapState (by decide)).2.2.1,
   (getAll_structural_snapshot snapState (by decide)).2.2.2 "c" saveCombo okAction2 none⟩

/-- Claim C7: suppression is applied once per matching enabled record,
not once per event: with default suppression configured the trace holds
exactly one preventDefault call per matching record, and with
propagation suppression configured exactly one stopPropagation call per
matching record. -/
theorem suppression_once_per_match (s : ManagerState) (e : KeyboardEvent)
    (hT : isTextEntryTarget e = false) :
    (optTruthy s.options.preventDefault = true →
      (handleKeyPress s e).countP isPD = matchCount s e) ∧
    (optTruthy s.options.stopPropagation = true →
      (handleKeyPress s e).countP isSP = matchCount s e) := by
  unfold handleKeyPress matchCount
  rw [hT]
  simp only [Bool.false_eq_true, if_false]
  exact ⟨fun hpd => countP_isPD_dispatchLoop s.options e (macroList s) hpd,
         fun hsp => countP_isSP_dispatchLoop s.options e (macroList s) hsp⟩

/-- Witness for C7: two macros matching the same x event under a manager
configured with both suppressions; each suppression fires twice. -/
theorem suppression_once_per_match_witness :
    isTextEntryTarget xEvent = false ∧
    optTruthy suppressState.options.preventDefault = true ∧
    optTruthy suppressState.options.stopPropagation = true ∧
    matchCount suppressState xEvent = 2 ∧
    (handleKeyPress suppressState xEvent).countP isPD =
      matchCount suppressState xEvent ∧
    (handleKeyPress suppressState xEvent).countP isSP =
      matchCount suppressState xEvent :=
  ⟨by decide, by decide, by decide, by decide,
   (suppression_once_per_match suppressState xEvent (by decide)).1 (by decide),
   (suppression_once_per_match suppressState xEvent (by decide)).2 (by decide)⟩

/-- Claim C8: unregister, enable, disable, toggle and update on an
absent id each return false and leave the state untouched; update on a
present id returns true and overwrites exactly the supplied fields of
the record object, leaving every omitted field and the id unchanged. -/
theorem missing_id_and_update_fields (s : ManagerState) (id : String) (u : MacroUpdate) :
    (mapLookup s.macros id = none →
      unregister s id = (false, s) ∧ enable s id = (false, s) ∧
      disable s id = (false, s) ∧ toggle s id = (false, s) ∧
      update s id u = (false, s)) ∧
    (∀ r m, mapLookup s.macros id = some r → heapLookup s.heap r = some m →
      (update s id u).1 = true ∧
      heapLookup ((update s id u).2).heap r =
        some { id := m.id
               keyCombo := u.keyCombo.getD m.keyCombo
               action := u.action.getD m.action
               description := u.description.getD m.description
               enabled := u.enabled.getD m.enabled }) := by
  constructor
  · intro h
    refine ⟨?_, ?_, ?_, ?_, ?_⟩ <;>
      simp [unregister, enable, disable, toggle, update, h]
  · intro r m hr hm
    constructor
    · simp [update, hr]
    · have h2 : ((update s id u).2).heap =
          heapModify s.heap r (fun x => applyUpdate x u) := by
        simp [update, hr]
      rw [h2, heapLookup_heapModify_self, hm]
      rfl

/-- Witness for C8: a missing id is rejected by all five operations, and
an update supplying description and enabled overwrites exactly those. -/
theorem missing_id_and_update_fields_witness :
    mapLookup sampleState.macros "missing" = none ∧
    unregister sampleState "missing" = (false, sampleState) ∧
    enable sampleState "missing" = (false, sampleState) ∧
    disable sampleState "missing" = (false, sampleState) ∧
    toggle sampleState "missing" = (false, sampleState) ∧
    update sampleState "missing" sampleUpd = (false, sampleState) ∧
    mapLookup sampleState.macros "save" = some 0 ∧
    heapLookup sampleState.heap 0 = some sampleRecord ∧
    (update sampleState "save" sampleUpd).1 = true ∧
    heapLookup ((update sampleState "save" sampleUpd).2).heap 0 =
      some { id := sampleRecord.id
             keyCombo := sampleUpd.keyCombo.getD sampleRecord.keyCombo
             action := sampleUpd.action.getD sampleRecord.action
             description := sampleUpd.description.getD sampleRecord.description
             enabled := sampleUpd.enabled.getD sampleRecord.enabled } := by
  have h1 := (missing_id_and_update_fields sampleState "missing" sampleUpd).1 (by decide)
  have h2 := (missing_id_and_update_fields sampleState "save" sampleUpd).2 0 sampleRecord
    (by decide) (by decide)
  exact ⟨by decide, h1.1, h1.2.1, h1.2.2.1, h1.2.2.2.1, h1.2.2.2.2,
    by decide, by decide, h2.1, h2.2⟩

/-- Claim C10: the effective configuration is the field-wise overwrite
of the defaults (preventDefault true, stopPropagation false, debug
false) by every key present in the supplied options object, keys
explicitly set to undefined included; in particular a constructor
argument with preventDefault present but undefined yields dispatch that
invokes a matching macro without suppressing the default action. -/
theorem options_spread_overwrite :
    (∀ o : MacroManagerOptionsArg,
      (mkOptions o).preventDefault = spreadField (some true) o.preventDefault ∧
      (mkOptions o).stopPropagation = spreadField (some false) o.stopPropagation ∧
      (mkOptions o).debug = spreadField (some false) o.debug) ∧
    (mkOptions undefinedPDArg).preventDefault = none ∧
    Effect.invoke "m" sampleAction.tag ∈ handleKeyPress undefinedPDState plainAEvent ∧
    Effect.preventDefault ∉ handleKeyPress undefinedPDState plainAEvent :=
  ⟨fun o => ⟨rfl, rfl, rfl⟩, by decide, by decide, by decide⟩
